import Mathlib

/-!
# Procedural terrain script: time control, parameter store and colour wiring

A shallow embedding of `src/script.js`.  The script keeps its mutable data in
module-level bindings (`debugObject`, `uniforms`, `paused`, `lastElapsedTime`)
that are written by control-panel callbacks and by the per-frame `tick`.
Here those bindings are the fields of one `State` record and every callback is
a function from `State` to `State`.

Numbers: the script only assigns and compares its time values, it never does
arithmetic on them, so they are modelled as rationals (no NaN, no infinity).
-/

namespace TerrainScript

/-! ## Data model -/

/-- The six colour entries of `debugObject` (script.js lines 43-48), kept as the
CSS style strings the script stores. -/
structure DebugObject where
  colorWaterDeep : String
  colorWaterSurface : String
  colorSand : String
  colorGrass : String
  colorSnow : String
  colorRock : String
deriving DecidableEq

/-- The `uniforms` object (script.js lines 50-66): each field is the `value` of
the uniform of that name.  `Color` stands for `THREE.Color`. -/
structure Uniforms (Color : Type) where
  uTime : ℚ
  uPositionFrequency : ℚ
  uStrength : ℚ
  uWarpFrequency : ℚ
  uWarpStrength : ℚ
  uColorWaterDeep : Color
  uColorWaterSurface : Color
  uColorSand : Color
  uColorGrass : Color
  uColorSnow : Color
  uColorRock : Color
deriving DecidableEq

/-- All mutable bindings of the script that the control panel and `tick` touch.
`togglePause` is the property of the anonymous object bound to the
"Pause Time" checkbox (line 68); `paused` and `lastElapsedTime` are the two
`let` bindings of lines 101-102. -/
structure State (Color : Type) where
  debugObject : DebugObject
  uniforms : Uniforms Color
  togglePause : Bool
  paused : Bool
  lastElapsedTime : ℚ
deriving DecidableEq

/-- Names of the six colour controllers (lines 104-125). -/
inductive ColorName where
  | colorWaterDeep
  | colorWaterSurface
  | colorSand
  | colorGrass
  | colorSnow
  | colorRock
deriving DecidableEq

/-- Names of the four numeric sliders (lines 76-99). -/
inductive Slider where
  | uPositionFrequency
  | uStrength
  | uWarpFrequency
  | uWarpStrength
deriving DecidableEq

/-- Reading `debugObject[name]`. -/
def DebugObject.get (d : DebugObject) : ColorName → String
  | .colorWaterDeep => d.colorWaterDeep
  | .colorWaterSurface => d.colorWaterSurface
  | .colorSand => d.colorSand
  | .colorGrass => d.colorGrass
  | .colorSnow => d.colorSnow
  | .colorRock => d.colorRock

/-- Writing `debugObject[name] = style`, what a colour controller does to the
object it is bound to before it calls its `onChange` handler. -/
def DebugObject.set (d : DebugObject) (c : ColorName) (style : String) : DebugObject :=
  match c with
  | .colorWaterDeep => { d with colorWaterDeep := style }
  | .colorWaterSurface => { d with colorWaterSurface := style }
  | .colorSand => { d with colorSand := style }
  | .colorGrass => { d with colorGrass := style }
  | .colorSnow => { d with colorSnow := style }
  | .colorRock => { d with colorRock := style }

/-- The colour uniform that carries the same name as a `debugObject` entry:
`colorSand` is read from `uColorSand`, and so on. -/
def Uniforms.color {Color : Type} (u : Uniforms Color) : ColorName → Color
  | .colorWaterDeep => u.uColorWaterDeep
  | .colorWaterSurface => u.uColorWaterSurface
  | .colorSand => u.uColorSand
  | .colorGrass => u.uColorGrass
  | .colorSnow => u.uColorSnow
  | .colorRock => u.uColorRock

/-- Reading the scalar uniform a slider is bound to. -/
def Uniforms.scalar {Color : Type} (u : Uniforms Color) : Slider → ℚ
  | .uPositionFrequency => u.uPositionFrequency
  | .uStrength => u.uStrength
  | .uWarpFrequency => u.uWarpFrequency
  | .uWarpStrength => u.uWarpStrength

/-- Lower end of each slider, the argument of `.min(...)` (lines 78, 84, 90, 96). -/
def Slider.min : Slider → ℚ
  | .uPositionFrequency => 0
  | .uStrength => 0
  | .uWarpFrequency => 0
  | .uWarpStrength => 0

/-- Upper end of each slider, the argument of `.max(...)` (lines 79, 85, 91, 97). -/
def Slider.max : Slider → ℚ
  | .uPositionFrequency => 1
  | .uStrength => 10
  | .uWarpFrequency => 10
  | .uWarpStrength => 1

/-! ## Operations -/

section Script

variable {Color : Type} (newColor : String → Color) (setStyle : Color → String → Color)

/-- The state once the module body has run (lines 43-66, 68, 101-102).
`newColor style` is `new THREE.Color(style)`, the constructor call of lines
56-65; the library is not part of the script, so it is a parameter. -/
def init : State Color :=
  let debugObject : DebugObject :=
    { colorWaterDeep := "#002b3d"
      colorWaterSurface := "#66a8ff"
      colorSand := "#ffe894"
      colorGrass := "#85d534"
      colorSnow := "#ffffff"
      colorRock := "#bfbd8d" }
  { debugObject := debugObject
    uniforms :=
      { uTime := 0
        uPositionFrequency := 2 / 10
        uStrength := 2
        uWarpFrequency := 5
        uWarpStrength := 5 / 10
        uColorWaterDeep := newColor debugObject.colorWaterDeep
        uColorWaterSurface := newColor debugObject.colorWaterSurface
        uColorSand := newColor debugObject.colorSand
        uColorGrass := newColor debugObject.colorGrass
        uColorSnow := newColor debugObject.colorSnow
        uColorRock := newColor debugObject.colorRock }
    togglePause := false
    paused := false
    lastElapsedTime := 0 }

/-- The `onChange` handler of the "Pause Time" checkbox (lines 70-75):
`paused = value; if (paused) lastElapsedTime = uniforms.uTime.value`. -/
def onChangeTogglePause (value : Bool) (s : State Color) : State Color :=
  let s1 := { s with paused := value }
  if s1.paused then { s1 with lastElapsedTime := s1.uniforms.uTime } else s1

/-- The time part of `tick` (lines 263-270); `elapsedTime` is the reading
`clock.getElapsedTime()` of that frame.  Camera controls, rendering and the
request for the next frame do not touch the state and are left out. -/
def tick (elapsedTime : ℚ) (s : State Color) : State Color :=
  if !s.paused then
    { s with uniforms := { s.uniforms with uTime := elapsedTime } }
  else
    { s with uniforms := { s.uniforms with uTime := s.lastElapsedTime } }

/-- A slider writes the chosen number into the `value` of the uniform it is
bound to (lines 76-99); there is no `onChange` handler on the sliders. -/
def setSlider (k : Slider) (v : ℚ) (s : State Color) : State Color :=
  match k with
  | .uPositionFrequency => { s with uniforms := { s.uniforms with uPositionFrequency := v } }
  | .uStrength => { s with uniforms := { s.uniforms with uStrength := v } }
  | .uWarpFrequency => { s with uniforms := { s.uniforms with uWarpFrequency := v } }
  | .uWarpStrength => { s with uniforms := { s.uniforms with uWarpStrength := v } }

/-- The `onChange` handlers of the six colour controllers (lines 104-125), one
branch per handler: `uniforms.uColorX.value.set(debugObject.colorX)`.
`setStyle previous style` is `previous.set(style)`, the method call on the
colour the uniform already holds; its result may depend on that colour (the
library keeps it when it cannot read the style), so the previous colour is an
argument.  Like `newColor` it is a parameter. -/
def onChangeColor (c : ColorName) (s : State Color) : State Color :=
  match c with
  | .colorWaterDeep =>
    { s with uniforms :=
        { s.uniforms with
          uColorWaterDeep := setStyle s.uniforms.uColorWaterDeep s.debugObject.colorWaterDeep } }
  | .colorWaterSurface =>
    { s with uniforms :=
        { s.uniforms with
          uColorWaterSurface :=
            setStyle s.uniforms.uColorWaterSurface s.debugObject.colorWaterSurface } }
  | .colorSand =>
    { s with uniforms :=
        { s.uniforms with uColorSand := setStyle s.uniforms.uColorSand s.debugObject.colorSand } }
  | .colorGrass =>
    { s with uniforms :=
        { s.uniforms with
          uColorGrass := setStyle s.uniforms.uColorGrass s.debugObject.colorGrass } }
  | .colorSnow =>
    { s with uniforms :=
        { s.uniforms with uColorSnow := setStyle s.uniforms.uColorSnow s.debugObject.colorSnow } }
  | .colorRock =>
    { s with uniforms :=
        { s.uniforms with uColorRock := setStyle s.uniforms.uColorRock s.debugObject.colorRock } }

/-- What can happen to the state after start-up: the pause checkbox changes, a
frame is drawn, a slider moves, or a colour is edited in the panel. -/
inductive Event where
  | togglePause (value : Bool)
  | tick (elapsedTime : ℚ)
  | slide (k : Slider) (v : ℚ)
  | editColor (c : ColorName) (style : String)
deriving DecidableEq

/-- One event.  A checkbox or colour controller first writes the new value into
the object it is bound to and then runs its `onChange` handler. -/
def step (s : State Color) : Event → State Color
  | .togglePause value => onChangeTogglePause value { s with togglePause := value }
  | .tick elapsedTime => tick elapsedTime s
  | .slide k v => setSlider k v s
  | .editColor c style =>
    onChangeColor setStyle c { s with debugObject := s.debugObject.set c style }

/-- Running a sequence of events, oldest first. -/
def run (s : State Color) : List Event → State Color
  | [] => s
  | ev :: evs => run (step setStyle s ev) evs

/-- The values of `uniforms.uTime.value` left by the successive ticks of a run. -/
def tickValues (s : State Color) : List Event → List ℚ
  | [] => []
  | .tick elapsedTime :: evs =>
    (step setStyle s (.tick elapsedTime)).uniforms.uTime ::
      tickValues (step setStyle s (.tick elapsedTime)) evs
  | ev :: evs => tickValues (step setStyle s ev) evs

end Script

/-- The clock readings handed to the successive ticks of a run. -/
def clockReadings : List Event → List ℚ
  | [] => []
  | .tick elapsedTime :: evs => elapsedTime :: clockReadings evs
  | _ :: evs => clockReadings evs

/-- An event the control panel permits: a slider only yields values between its
`min` and its `max`. -/
def Permitted : Event → Prop
  | .slide k v => k.min ≤ v ∧ v ≤ k.max
  | _ => True

instance : DecidablePred Permitted := fun ev => by
  cases ev <;> unfold Permitted <;> infer_instance

/-! ## Height displacement

The vertex shader `shaders/terrain/vertex.glsl` is imported by the script
(line 7) and driven by `uniforms` (lines 127-139).  It is modelled from the
written description of the HeightDisplacer component. -/

/-- A point or direction in space. -/
structure Vec3 where
  x : ℚ
  y : ℚ
  z : ℚ
deriving DecidableEq

/-- Componentwise sum. -/
def Vec3.add (a b : Vec3) : Vec3 := ⟨a.x + b.x, a.y + b.y, a.z + b.z⟩

/-- Componentwise difference. -/
def Vec3.sub (a b : Vec3) : Vec3 := ⟨a.x - b.x, a.y - b.y, a.z - b.z⟩

/-- Scaling by a number. -/
def Vec3.smul (k : ℚ) (a : Vec3) : Vec3 := ⟨k * a.x, k * a.y, k * a.z⟩

/-- Cross product. -/
def Vec3.cross (a b : Vec3) : Vec3 :=
  ⟨a.y * b.z - a.z * b.y, a.z * b.x - a.x * b.z, a.x * b.y - a.y * b.x⟩

/-- Modelled from the spec: the scalar entries of the ParameterStore
(`positionFrequency`, `strength`, `warpFrequency`, `warpStrength`) read by the
vertex shader, which is not among the source files. -/
structure Params where
  positionFrequency : ℚ
  strength : ℚ
  warpFrequency : ℚ
  warpStrength : ℚ
deriving DecidableEq

/-- The parameter store the shader sees: the script hands `uniforms` to the
terrain material (line 133), so each parameter is the uniform of that name. -/
def Uniforms.params {Color : Type} (u : Uniforms Color) : Params :=
  { positionFrequency := u.uPositionFrequency
    strength := u.uStrength
    warpFrequency := u.uWarpFrequency
    warpStrength := u.uWarpStrength }

/-- Modelled from the spec: `NoiseField.sample(x, z, t, params)`.  The noise
algorithm of the missing shader is not described, so the sample function is a
parameter of everything below. -/
abbrev NoiseField := ℚ → ℚ → ℚ → Params → ℚ

/-- Modelled from the spec: the height of the missing vertex shader,
"Height is `noiseField.sample(x, z, t, params) * params.strength`". -/
def height (noise : NoiseField) (x z t : ℚ) (p : Params) : ℚ :=
  noise x z t p * p.strength

/-- The normal of the flat plane: the plane geometry is rotated by a quarter
turn about the x axis (line 41) and so lies in the xz plane, facing up. -/
def planeNormal : Vec3 := ⟨0, 1, 0⟩

/-- The vertex of the flat plane above base position `(x, z)`. -/
def basePoint (x z : ℚ) : Vec3 := ⟨x, 0, z⟩

/-- Modelled from the spec: the displaced position of the missing vertex
shader, "the output position moves along the plane's original surface normal
by that height". -/
def displacePosition (noise : NoiseField) (x z t : ℚ) (p : Params) : Vec3 :=
  (basePoint x z).add (Vec3.smul (height noise x z t p) planeNormal)

/-- Modelled from the spec: the normal of the missing vertex shader, "estimated
by finite-difference sampling of the height function at small offsets along
both tangent directions and taking the cross product of the resulting tangent
vectors (central-difference preferred)".  `offset` is the small offset; each
tangent vector is the central difference quotient of the displaced position. -/
def estimateNormal (noise : NoiseField) (offset x z t : ℚ) (p : Params) : Vec3 :=
  let tangentX := Vec3.smul (1 / (2 * offset))
    ((displacePosition noise (x + offset) z t p).sub (displacePosition noise (x - offset) z t p))
  let tangentZ := Vec3.smul (1 / (2 * offset))
    ((displacePosition noise x (z + offset) t p).sub (displacePosition noise x (z - offset) t p))
  tangentZ.cross tangentX

/-- Modelled from the spec: `HeightDisplacer.displace(basePosition, t, params)`
of the missing vertex shader, returning the displaced position and the normal. -/
def displace (noise : NoiseField) (offset x z t : ℚ) (p : Params) : Vec3 × Vec3 :=
  (displacePosition noise x z t p, estimateNormal noise offset x z t p)

/-- A small colour library for the worked examples: a colour is a seven
character style string, `set` keeps the previous colour when the string it is
given has another length. -/
def sampleSet (previous style : String) : String :=
  if style.length = 7 then style else previous

/-- The constructor of the example library: `set` on a fresh white colour. -/
def sampleNew (style : String) : String := sampleSet "#ffffff" style

/-- A style string the colour library reads: `set` then gives the colour the
constructor builds from the same string, whatever colour was held before. -/
def StyleParses {Color : Type} (newColor : String → Color)
    (setStyle : Color → String → Color) (style : String) : Prop :=
  ∀ previous : Color, setStyle previous style = newColor style

/-- The pause invariant: while paused, the frozen value is the displayed time. -/
def Frozen {Color : Type} (s : State Color) : Prop :=
  s.paused = true → s.lastElapsedTime = s.uniforms.uTime

/-! ## Shared lemmas on single events -/

section Lemmas

variable {Color : Type} (newColor : String → Color) (setStyle : Color → String → Color)

@[simp] theorem step_togglePause_paused (s : State Color) (v : Bool) :
    (step setStyle s (.togglePause v)).paused = v := by
  cases v <;> simp [step, onChangeTogglePause]

@[simp] theorem step_togglePause_uniforms (s : State Color) (v : Bool) :
    (step setStyle s (.togglePause v)).uniforms = s.uniforms := by
  cases v <;> simp [step, onChangeTogglePause]

@[simp] theorem step_togglePause_last (s : State Color) (v : Bool) :
    (step setStyle s (.togglePause v)).lastElapsedTime =
      if v then s.uniforms.uTime else s.lastElapsedTime := by
  cases v <;> simp [step, onChangeTogglePause]

@[simp] theorem step_tick_paused (s : State Color) (e : ℚ) :
    (step setStyle s (.tick e)).paused = s.paused := by
  cases h : s.paused <;> simp [step, tick, h]

@[simp] theorem step_tick_last (s : State Color) (e : ℚ) :
    (step setStyle s (.tick e)).lastElapsedTime = s.lastElapsedTime := by
  cases h : s.paused <;> simp [step, tick, h]

@[simp] theorem step_tick_uTime (s : State Color) (e : ℚ) :
    (step setStyle s (.tick e)).uniforms.uTime =
      if s.paused then s.lastElapsedTime else e := by
  cases h : s.paused <;> simp [step, tick, h]

@[simp] theorem step_slide_paused (s : State Color) (k : Slider) (v : ℚ) :
    (step setStyle s (.slide k v)).paused = s.paused := by
  cases k <;> rfl

@[simp] theorem step_slide_last (s : State Color) (k : Slider) (v : ℚ) :
    (step setStyle s (.slide k v)).lastElapsedTime = s.lastElapsedTime := by
  cases k <;> rfl

@[simp] theorem step_slide_uTime (s : State Color) (k : Slider) (v : ℚ) :
    (step setStyle s (.slide k v)).uniforms.uTime = s.uniforms.uTime := by
  cases k <;> rfl

@[simp] theorem step_editColor_paused (s : State Color) (c : ColorName) (style : String) :
    (step setStyle s (.editColor c style)).paused = s.paused := by
  cases c <;> rfl

@[simp] theorem step_editColor_last (s : State Color) (c : ColorName) (style : String) :
    (step setStyle s (.editColor c style)).lastElapsedTime = s.lastElapsedTime := by
  cases c <;> rfl

@[simp] theorem step_editColor_uTime (s : State Color) (c : ColorName) (style : String) :
    (step setStyle s (.editColor c style)).uniforms.uTime = s.uniforms.uTime := by
  cases c <;> rfl

theorem frozen_init : Frozen (init newColor) := by
  intro h; simp [init] at h

theorem frozen_step (s : State Color) (ev : Event) (h : Frozen s) :
    Frozen (step setStyle s ev) := by
  unfold Frozen at *
  cases ev with
  | togglePause v => cases v <;> simp
  | tick e =>
    intro hp
    simp only [step_tick_paused] at hp
    simp [hp]
  | slide k v => simpa using h
  | editColor c style => simpa using h

theorem frozen_run (evs : List Event) (s : State Color) (h : Frozen s) :
    Frozen (run setStyle s evs) := by
  induction evs generalizing s with
  | nil => exact h
  | cons ev evs ih => exact ih _ (frozen_step setStyle s ev h)

theorem run_append (a b : List Event) (s : State Color) :
    run setStyle s (a ++ b) = run setStyle (run setStyle s a) b := by
  induction a generalizing s with
  | nil => rfl
  | cons ev a ih => exact ih _

theorem tickValues_append (a b : List Event) (s : State Color) :
    tickValues setStyle s (a ++ b) =
      tickValues setStyle s a ++ tickValues setStyle (run setStyle s a) b := by
  induction a generalizing s with
  | nil => rfl
  | cons ev a ih =>
    cases ev <;> simp [tickValues, run, ih]

theorem clockReadings_append (a b : List Event) :
    clockReadings (a ++ b) = clockReadings a ++ clockReadings b := by
  induction a with
  | nil => rfl
  | cons ev a ih => cases ev <;> simp [clockReadings, ih]

/-- Non-decreasing clock readings, none below the displayed time, give
non-decreasing displayed times, none below the one the run starts with. -/
theorem tickValues_mono (evs : List Event) (s : State Color) (hf : Frozen s)
    (hlo : ∀ c ∈ clockReadings evs, s.uniforms.uTime ≤ c)
    (hclk : (clockReadings evs).Pairwise (· ≤ ·)) :
    (tickValues setStyle s evs).Pairwise (· ≤ ·) ∧
      ∀ o ∈ tickValues setStyle s evs, s.uniforms.uTime ≤ o := by
  induction evs generalizing s with
  | nil => simp [tickValues]
  | cons ev evs ih =>
    have hf1 := frozen_step setStyle s ev hf
    cases ev with
    | togglePause v =>
      have := ih _ hf1 (by simpa [clockReadings] using hlo) (by simpa [clockReadings] using hclk)
      simpa [tickValues] using this
    | slide k v =>
      have := ih _ hf1 (by simpa [clockReadings] using hlo) (by simpa [clockReadings] using hclk)
      simpa [tickValues] using this
    | editColor c style =>
      have := ih _ hf1 (by simpa [clockReadings] using hlo) (by simpa [clockReadings] using hclk)
      simpa [tickValues] using this
    | tick e =>
      simp only [clockReadings, List.pairwise_cons, List.mem_cons, forall_eq_or_imp] at hlo hclk
      have hstep : s.uniforms.uTime ≤ (step setStyle s (.tick e)).uniforms.uTime := by
        cases hp : s.paused
        · simpa [hp] using hlo.1
        · simp [hp, hf hp]
      have hle : (step setStyle s (.tick e)).uniforms.uTime ≤ e := by
        cases hp : s.paused
        · simp [hp]
        · simpa [hp, hf hp] using hlo.1
      have := ih _ hf1 (fun c hc => le_trans hle (hclk.1 c hc)) hclk.2
      simp only [tickValues, List.pairwise_cons, List.mem_cons, forall_eq_or_imp]
      exact ⟨⟨this.2, this.1⟩, hstep, fun o ho => le_trans hstep (this.2 o ho)⟩

/-- The displayed time never exceeds a bound that holds for it at the start and
for every clock reading of the run. -/
theorem run_uTime_le (evs : List Event) (s : State Color) (b : ℚ) (hf : Frozen s)
    (hs : s.uniforms.uTime ≤ b) (hclk : ∀ c ∈ clockReadings evs, c ≤ b) :
    (run setStyle s evs).uniforms.uTime ≤ b := by
  induction evs generalizing s with
  | nil => exact hs
  | cons ev evs ih =>
    have hf1 := frozen_step setStyle s ev hf
    cases ev with
    | togglePause v => exact ih _ hf1 (by simpa using hs) (by simpa [clockReadings] using hclk)
    | slide k v => exact ih _ hf1 (by simpa using hs) (by simpa [clockReadings] using hclk)
    | editColor c style =>
      exact ih _ hf1 (by simpa using hs) (by simpa [clockReadings] using hclk)
    | tick e =>
      simp only [clockReadings, List.mem_cons, forall_eq_or_imp] at hclk
      refine ih _ hf1 ?_ hclk.2
      cases hp : s.paused
      · simpa [hp] using hclk.1
      · simpa [hp, hf hp] using hs

end Lemmas

/-! ## Claims -/

/-- C1: world time is monotone.  For every run of events from the initial state
whose tick clock readings are non-decreasing and non-negative, the values of
`uniforms.uTime.value` left by the successive ticks are non-decreasing. -/
theorem C1_world_time_monotone {Color : Type} (newColor : String → Color)
    (setStyle : Color → String → Color) (evs : List Event)
    (hclk : (clockReadings evs).Pairwise (· ≤ ·))
    (hnn : ∀ c ∈ clockReadings evs, 0 ≤ c) :
    (tickValues setStyle (init newColor) evs).Pairwise (· ≤ ·) :=
  (tickValues_mono setStyle evs (init newColor) (frozen_init newColor)
    (by simpa [init] using hnn) hclk).1

theorem C1_world_time_monotone_witness :
    (tickValues sampleSet (init sampleNew)
      [.tick 0, .tick 1, .togglePause true, .tick 2, .togglePause false, .tick 3]).Pairwise
      (· ≤ ·) :=
  C1_world_time_monotone sampleNew sampleSet
    [.tick 0, .tick 1, .togglePause true, .tick 2, .togglePause false, .tick 3]
    (by decide) (by decide)

/-- C2: what a tick writes.  From any state and for any clock reading, `tick`
sets `uniforms.uTime.value` to `lastElapsedTime` if `paused` was true and to
the clock reading `elapsedTime` if `paused` was false, and changes nothing
else: `paused` and `lastElapsedTime` are as before, so the value also agrees
with them as read after the tick. -/
theorem C2_tick_observed_time {Color : Type} (s : State Color) (elapsedTime : ℚ) :
    tick elapsedTime s =
      { s with uniforms :=
          { s.uniforms with uTime := if s.paused then s.lastElapsedTime else elapsedTime } } ∧
    (tick elapsedTime s).uniforms.uTime =
      (if s.paused then s.lastElapsedTime else elapsedTime) ∧
    (tick elapsedTime s).paused = s.paused ∧
    (tick elapsedTime s).lastElapsedTime = s.lastElapsedTime ∧
    (tick elapsedTime s).uniforms.uTime =
      (if (tick elapsedTime s).paused then (tick elapsedTime s).lastElapsedTime
      else elapsedTime) := by
  cases h : s.paused <;> simp [tick, h]

/-- C3: pausing freezes the time at its current value.  When the pause toggle
fires with true, `lastElapsedTime` becomes the current `uniforms.uTime.value`,
`paused` is true, and however many ticks follow, with any clock readings, each
of them leaves `uniforms.uTime.value` at that same value. -/
theorem C3_pause_freezes {Color : Type} (setStyle : Color → String → Color) (s : State Color)
    (readings : List ℚ) :
    (step setStyle s (.togglePause true)).lastElapsedTime = s.uniforms.uTime ∧
    (step setStyle s (.togglePause true)).paused = true ∧
    tickValues setStyle (step setStyle s (.togglePause true)) (readings.map Event.tick) =
      List.replicate readings.length s.uniforms.uTime := by
  refine ⟨by simp, by simp, ?_⟩
  have key : ∀ (es : List ℚ) (r : State Color), r.paused = true →
      tickValues setStyle r (es.map Event.tick) = List.replicate es.length r.lastElapsedTime := by
    intro es
    induction es with
    | nil => intro r _; rfl
    | cons e es ih =>
      intro r hr
      have h1 := ih (step setStyle r (.tick e)) (by simpa using hr)
      simp only [List.map_cons, tickValues, h1, step_tick_uTime, hr, step_tick_last,
        List.length_cons, List.replicate_succ, if_true]
  simpa using key readings (step setStyle s (.togglePause true)) (by simp)

/-- C6: the time controller starts running at time 0: initially `paused` is
false, `lastElapsedTime` is 0, `uniforms.uTime.value` is 0 and the pause
checkbox is false. -/
theorem C6_initial_state {Color : Type} (newColor : String → Color) :
    (init newColor).paused = false ∧ (init newColor).lastElapsedTime = 0 ∧
    (init newColor).uniforms.uTime = 0 ∧ (init newColor).togglePause = false :=
  ⟨rfl, rfl, rfl, rfl⟩

/-- C10: in every state reached from the initial state by any sequence of
events, if `paused` is true then `lastElapsedTime` equals
`uniforms.uTime.value`, and firing the pause toggle with true again leaves the
frozen value unchanged. -/
theorem C10_paused_frozen_eq_time {Color : Type} (newColor : String → Color)
    (setStyle : Color → String → Color)
    (evs : List Event) (hp : (run setStyle (init newColor) evs).paused = true) :
    (run setStyle (init newColor) evs).lastElapsedTime =
      (run setStyle (init newColor) evs).uniforms.uTime ∧
    (step setStyle (run setStyle (init newColor) evs) (.togglePause true)).lastElapsedTime =
      (run setStyle (init newColor) evs).lastElapsedTime := by
  have h := frozen_run setStyle evs (init newColor) (frozen_init newColor) hp
  exact ⟨h, by simp [h]⟩

theorem C10_paused_frozen_eq_time_witness :
    (run sampleSet (init sampleNew) [.tick 1, .togglePause true, .tick 2]).paused = true ∧
    (run sampleSet (init sampleNew)
        [.tick 1, .togglePause true, .tick 2]).lastElapsedTime =
      (run sampleSet (init sampleNew)
        [.tick 1, .togglePause true, .tick 2]).uniforms.uTime ∧
    (step sampleSet (run sampleSet (init sampleNew) [.tick 1, .togglePause true, .tick 2])
        (.togglePause true)).lastElapsedTime =
      (run sampleSet (init sampleNew)
        [.tick 1, .togglePause true, .tick 2]).lastElapsedTime :=
  ⟨by decide,
    C10_paused_frozen_eq_time sampleNew sampleSet [.tick 1, .togglePause true, .tick 2]
      (by decide)⟩

/-- C5 (as stated, refuted): after tick 1, pause, tick 2, resume, tick 3 the
first tick after the resume leaves `uniforms.uTime.value` at 3, the live clock
reading, not at the value 1 left by the last tick before the pause. -/
theorem C5_resume_jumps_to_clock :
    (run sampleSet (init sampleNew) [.tick 1]).uniforms.uTime = 1 ∧
    (run sampleSet (init sampleNew)
      [.tick 1, .togglePause true, .tick 2, .togglePause false, .tick 3]).uniforms.uTime = 3 ∧
    (run sampleSet (init sampleNew)
      [.tick 1, .togglePause true, .tick 2, .togglePause false, .tick 3]).uniforms.uTime ≠
    (run sampleSet (init sampleNew) [.tick 1]).uniforms.uTime := by
  decide

/-- C5 (amended): pausing produces no discontinuity.  From any state, after the
pause toggle fires with true and any number of ticks follow, with any clock
readings and no parameter change, the whole `uniforms` object (time included)
is what it was before the pause, so anything synthesized from the uniforms, such
as height and colour at a base position, is unchanged; the first tick after
the resume then sets `uniforms.uTime.value` to its own clock reading. -/
theorem C5_pause_keeps_uniforms {Color : Type} (setStyle : Color → String → Color)
    (s : State Color)
    (readings : List ℚ) (elapsedTime : ℚ) :
    (run setStyle s (.togglePause true :: readings.map Event.tick)).uniforms = s.uniforms ∧
    (∀ (Out : Type) (synth : Uniforms Color → Out),
      synth (run setStyle s (.togglePause true :: readings.map Event.tick)).uniforms =
        synth s.uniforms) ∧
    (run setStyle s (.togglePause true :: (readings.map Event.tick ++
      [.togglePause false, .tick elapsedTime]))).uniforms.uTime = elapsedTime := by
  have key : ∀ (es : List ℚ) (r : State Color), r.paused = true →
      r.lastElapsedTime = r.uniforms.uTime →
      (run setStyle r (es.map Event.tick)).uniforms = r.uniforms := by
    intro es
    induction es with
    | nil => intro r _ _; rfl
    | cons e es ih =>
      intro r hr hl
      have hu : (step setStyle r (.tick e)).uniforms = r.uniforms := by
        simp [step, tick, hr, hl]
      have h1 := ih (step setStyle r (.tick e)) (by simpa using hr) (by simp [hu, hl])
      simpa [run, hu] using h1
  have h1 : (run setStyle s (.togglePause true :: readings.map Event.tick)).uniforms =
      s.uniforms := by
    simpa [run] using key readings (step setStyle s (.togglePause true)) (by simp) (by simp)
  refine ⟨h1, fun _ synth => by rw [h1], ?_⟩
  rw [← List.cons_append, run_append]
  simp [run]

/-- C4 (as stated, refuted): with strictly increasing clock readings 1, 2, 3,
pause after the first tick, read the frozen value 1 at the second tick, resume
and pause again before the next frame: the tick after the resume leaves
`uniforms.uTime.value` at 1, which is not greater than the value read while
paused. -/
theorem C4_repause_not_strict :
    (clockReadings [.tick 1, .togglePause true, .tick 2, .togglePause false,
      .togglePause true, .tick 3]).Pairwise (· < ·) ∧
    (run sampleSet (init sampleNew) [.tick 1, .togglePause true]).paused = true ∧
    (run sampleSet (init sampleNew)
      [.tick 1, .togglePause true, .tick 2]).uniforms.uTime = 1 ∧
    ¬ ((run sampleSet (init sampleNew)
        [.tick 1, .togglePause true, .tick 2]).uniforms.uTime <
      (run sampleSet (init sampleNew)
        [.tick 1, .togglePause true, .tick 2, .togglePause false,
          .togglePause true, .tick 3]).uniforms.uTime) := by
  decide

/-- C4 (amended): for every run from the initial state whose clock readings are
non-negative and strictly increasing from one tick to the next, if a tick reads
the time while paused and the pause toggle later fires with false, then the
value read is the frozen `lastElapsedTime`, every tick after the resume leaves
`uniforms.uTime.value` not less than it, and every tick from the first one
that runs while not paused on leaves it strictly greater. -/
theorem C4_resume_strictly_increases {Color : Type} (newColor : String → Color)
    (setStyle : Color → String → Color)
    (pre mid post : List Event) (e : ℚ)
    (hclk : (clockReadings
      (pre ++ (.tick e :: (mid ++ (.togglePause false :: post))))).Pairwise (· < ·))
    (hnn : ∀ c ∈ clockReadings (pre ++ (.tick e :: (mid ++ (.togglePause false :: post)))),
      0 ≤ c)
    (hp : (run setStyle (init newColor) pre).paused = true) :
    (run setStyle (init newColor) (pre ++ [.tick e])).uniforms.uTime =
      (run setStyle (init newColor) pre).lastElapsedTime ∧
    (∀ o ∈ tickValues setStyle
        (run setStyle (init newColor) (pre ++ (.tick e :: (mid ++ [.togglePause false])))) post,
      (run setStyle (init newColor) (pre ++ [.tick e])).uniforms.uTime ≤ o) ∧
    (∀ (a b : List Event) (e1 : ℚ), post = a ++ (.tick e1 :: b) →
      (run setStyle (run setStyle (init newColor)
        (pre ++ (.tick e :: (mid ++ [.togglePause false])))) a).paused = false →
      ∀ o ∈ tickValues setStyle (run setStyle (run setStyle (init newColor)
          (pre ++ (.tick e :: (mid ++ [.togglePause false])))) a) (.tick e1 :: b),
        (run setStyle (init newColor) (pre ++ [.tick e])).uniforms.uTime < o) := by
  -- the state right after the tick that reads the frozen value
  have hS1 : Frozen (run setStyle (init newColor) (pre ++ [.tick e])) :=
    frozen_run setStyle _ _ (frozen_init newColor)
  simp only [clockReadings_append, clockReadings, List.pairwise_append, List.pairwise_cons,
    List.mem_append, List.mem_cons] at hclk hnn
  obtain ⟨hpre, ⟨hemid, hmid, hpost, hmp⟩, hpe⟩ := hclk
  have he0 : 0 ≤ e := hnn e (Or.inr (Or.inl rfl))
  have hle : (run setStyle (init newColor) (pre ++ [.tick e])).uniforms.uTime ≤ e := by
    apply run_uTime_le setStyle _ _ e (frozen_init newColor) (by simpa [init] using he0)
    intro c hc
    simp only [clockReadings_append, clockReadings, List.mem_append, List.mem_cons,
      List.mem_nil_iff, or_false] at hc
    rcases hc with hc | hc
    · exact le_of_lt (hpe c hc e (Or.inl rfl))
    · exact le_of_eq hc
  have hsplit : run setStyle (init newColor) (pre ++ (.tick e :: (mid ++ [.togglePause false]))) =
      run setStyle (run setStyle (init newColor) (pre ++ [.tick e]))
        (mid ++ [.togglePause false]) := by
    rw [← run_append]; simp
  refine ⟨?_, ?_, ?_⟩
  · rw [run_append]; simp [run, hp]
  · intro o ho
    have hm := tickValues_mono setStyle (mid ++ (.togglePause false :: post))
      (run setStyle (init newColor) (pre ++ [.tick e])) hS1 ?_ ?_
    · apply hm.2 o
      have : mid ++ (.togglePause false :: post) = (mid ++ [.togglePause false]) ++ post := by simp
      rw [this, tickValues_append, ← hsplit]
      exact List.mem_append_right _ ho
    · intro c hc
      simp only [clockReadings_append, clockReadings, List.mem_append] at hc
      exact le_trans hle (le_of_lt (hemid c hc))
    · simp only [clockReadings_append, clockReadings, List.pairwise_append]
      exact ⟨hmid.imp le_of_lt, hpost.imp le_of_lt, fun x hx y hy => le_of_lt (hmp x hx y hy)⟩
  · intro a b e1 hpostEq hrun o ho
    subst hpostEq
    simp only [clockReadings_append, clockReadings, List.pairwise_append, List.pairwise_cons,
      List.mem_append, List.mem_cons] at hpost hemid
    have hee1 : e < e1 := hemid e1 (Or.inr (Or.inr (Or.inl rfl)))
    have hlt : (run setStyle (init newColor) (pre ++ [.tick e])).uniforms.uTime < e1 :=
      lt_of_le_of_lt hle hee1
    simp only [tickValues, step_tick_uTime, hrun, List.mem_cons] at ho
    rcases ho with ho | ho
    · simpa [ho] using hlt
    · have hm := tickValues_mono setStyle b
        (step setStyle (run setStyle (run setStyle (init newColor)
          (pre ++ (.tick e :: (mid ++ [.togglePause false])))) a) (.tick e1))
        (frozen_step setStyle _ _ (frozen_run setStyle _ _
          (frozen_run setStyle _ _ (frozen_init newColor)))) ?_ (hpost.2.1.2.imp le_of_lt)
      · have := hm.2 o ho
        simp only [step_tick_uTime, hrun] at this
        exact lt_of_lt_of_le hlt (by simpa using this)
      · intro c hc
        simp only [step_tick_uTime, hrun]
        simpa using le_of_lt (hpost.2.1.1 c hc)

theorem C4_resume_strictly_increases_witness :
    (clockReadings ([.tick 1, .togglePause true] ++ (.tick 2 :: ([] ++ (.togglePause false ::
      [.togglePause true, .tick 3, .togglePause false, .tick 4]))))).Pairwise (· < ·) ∧
    (run sampleSet (init sampleNew) [.tick 1, .togglePause true]).paused = true ∧
    ((run sampleSet (init sampleNew)
        ([.tick 1, .togglePause true] ++ [.tick 2])).uniforms.uTime =
      (run sampleSet (init sampleNew) [.tick 1, .togglePause true]).lastElapsedTime ∧
    (∀ o ∈ tickValues sampleSet
        (run sampleSet (init sampleNew)
          ([.tick 1, .togglePause true] ++ (.tick 2 :: ([] ++ [.togglePause false]))))
        [.togglePause true, .tick 3, .togglePause false, .tick 4],
      (run sampleSet (init sampleNew)
        ([.tick 1, .togglePause true] ++ [.tick 2])).uniforms.uTime ≤ o) ∧
    (∀ (a b : List Event) (e1 : ℚ),
      [.togglePause true, .tick 3, .togglePause false, .tick 4] = a ++ (.tick e1 :: b) →
      (run sampleSet (run sampleSet (init sampleNew)
        ([.tick 1, .togglePause true] ++ (.tick 2 :: ([] ++ [.togglePause false])))) a).paused
          = false →
      ∀ o ∈ tickValues sampleSet (run sampleSet (run sampleSet (init sampleNew)
          ([.tick 1, .togglePause true] ++ (.tick 2 :: ([] ++ [.togglePause false])))) a)
          (.tick e1 :: b),
        (run sampleSet (init sampleNew)
          ([.tick 1, .togglePause true] ++ [.tick 2])).uniforms.uTime < o)) :=
  ⟨by decide, by decide,
    C4_resume_strictly_increases sampleNew sampleSet [.tick 1, .togglePause true] []
      [.togglePause true, .tick 3, .togglePause false, .tick 4] 2
      (by decide) (by decide) (by decide)⟩

/-- C7 (as stated, refuted): the uPositionFrequency slider has `min(0)`, so it
permits the value 0, after which positionFrequency is not greater than 0. -/
theorem C7_positionFrequency_can_be_zero :
    Permitted (.slide .uPositionFrequency 0) ∧
    ¬ (0 < (run sampleSet (init sampleNew)
      [.slide .uPositionFrequency 0]).uniforms.uPositionFrequency) := by
  decide

/-- C7 (amended): in the initial parameter store positionFrequency is greater
than 0, and after every sequence of events the control panel permits (each
slider value within that slider's min and max) positionFrequency, strength,
warpFrequency and warpStrength are all at least 0. -/
theorem C7_scalars_nonneg {Color : Type} (newColor : String → Color)
    (setStyle : Color → String → Color) (evs : List Event)
    (hperm : ∀ ev ∈ evs, Permitted ev) :
    0 < (init newColor).uniforms.uPositionFrequency ∧
    0 ≤ (run setStyle (init newColor) evs).uniforms.uPositionFrequency ∧
    0 ≤ (run setStyle (init newColor) evs).uniforms.uStrength ∧
    0 ≤ (run setStyle (init newColor) evs).uniforms.uWarpFrequency ∧
    0 ≤ (run setStyle (init newColor) evs).uniforms.uWarpStrength := by
  have key : ∀ (l : List Event) (s : State Color), (∀ ev ∈ l, Permitted ev) →
      (∀ k, 0 ≤ s.uniforms.scalar k) → ∀ k, 0 ≤ (run setStyle s l).uniforms.scalar k := by
    intro l
    induction l with
    | nil => intro s _ hs; exact hs
    | cons ev l ih =>
      intro s hl hs
      have hev : Permitted ev := hl ev (List.mem_cons_self _ _)
      refine ih (step setStyle s ev) (fun x hx => hl x (List.mem_cons_of_mem _ hx)) ?_
      intro k
      have hk := hs k
      cases ev with
      | togglePause v =>
        cases v <;> cases k <;> simpa [step, onChangeTogglePause, Uniforms.scalar] using hk
      | tick e =>
        cases hp : s.paused <;> cases k <;> simpa [step, tick, hp, Uniforms.scalar] using hk
      | editColor c style =>
        cases c <;> cases k <;> simpa [step, onChangeColor, Uniforms.scalar] using hk
      | slide j v =>
        have hv : 0 ≤ v := by
          cases j <;> simpa [Permitted, Slider.min] using hev.1
        cases j <;> cases k <;>
          first
            | simpa [step, setSlider, Uniforms.scalar] using hv
            | simpa [step, setSlider, Uniforms.scalar] using hk
  have h0 : ∀ k, 0 ≤ (init newColor).uniforms.scalar k := by
    intro k; cases k <;> simp [init, Uniforms.scalar] <;> norm_num
  have h := key evs (init newColor) hperm h0
  refine ⟨by simp [init], ?_, ?_, ?_, ?_⟩
  · exact h .uPositionFrequency
  · exact h .uStrength
  · exact h .uWarpFrequency
  · exact h .uWarpStrength

theorem C7_scalars_nonneg_witness :
    (∀ ev ∈ [Event.slide .uPositionFrequency 0, .slide .uStrength 10, .tick 1,
      .slide .uWarpStrength 1], Permitted ev) ∧
    (0 < (init sampleNew).uniforms.uPositionFrequency ∧
    0 ≤ (run sampleSet (init sampleNew) [.slide .uPositionFrequency 0,
      .slide .uStrength 10, .tick 1, .slide .uWarpStrength 1]).uniforms.uPositionFrequency ∧
    0 ≤ (run sampleSet (init sampleNew) [.slide .uPositionFrequency 0,
      .slide .uStrength 10, .tick 1, .slide .uWarpStrength 1]).uniforms.uStrength ∧
    0 ≤ (run sampleSet (init sampleNew) [.slide .uPositionFrequency 0,
      .slide .uStrength 10, .tick 1, .slide .uWarpStrength 1]).uniforms.uWarpFrequency ∧
    0 ≤ (run sampleSet (init sampleNew) [.slide .uPositionFrequency 0,
      .slide .uStrength 10, .tick 1, .slide .uWarpStrength 1]).uniforms.uWarpStrength) :=
  ⟨by decide, C7_scalars_nonneg sampleNew sampleSet _ (by decide)⟩

/-- C8: with strength equal to 0, the height displacement returns the
unmodified base position and the flat-plane normal, for every base position,
every time, every noise field and every non-zero sampling offset. -/
theorem C8_zero_strength_is_flat {Color : Type} (noise : NoiseField) (offset x z t : ℚ)
    (u : Uniforms Color) (hoffset : offset ≠ 0) (hstrength : u.uStrength = 0) :
    displace noise offset x z t u.params = (basePoint x z, planeNormal) := by
  have h2 : (2 : ℚ) * offset ≠ 0 := mul_ne_zero two_ne_zero hoffset
  have hx : 1 / (2 * offset) * (x + offset - (x - offset)) = 1 := by
    field_simp; ring
  have hz : 1 / (2 * offset) * (z + offset - (z - offset)) = 1 := by
    field_simp; ring
  simp only [displace, estimateNormal, displacePosition, height, Uniforms.params, hstrength,
    Vec3.add, Vec3.sub, Vec3.smul, Vec3.cross, basePoint, planeNormal, mul_zero, zero_mul,
    add_zero, sub_self, hx, hz, mul_one, sub_zero]

theorem C8_zero_strength_is_flat_witness :
    (1 / 100 : ℚ) ≠ 0 ∧
    (run sampleSet (init sampleNew) [.slide .uStrength 0]).uniforms.uStrength = 0 ∧
    displace (fun x z t p => x * z + t + p.positionFrequency) (1 / 100) 3 (-4) 7
      (run sampleSet (init sampleNew) [.slide .uStrength 0]).uniforms.params =
      (basePoint 3 (-4), planeNormal) :=
  ⟨by norm_num, by decide,
    C8_zero_strength_is_flat (fun x z t p => x * z + t + p.positionFrequency) (1 / 100) 3 (-4) 7
      (run sampleSet (init sampleNew) [.slide .uStrength 0]).uniforms
      (by norm_num) (by decide)⟩

/-- C9 (as stated, refuted): in the example library the style "sand" is not
read.  After the colour edit that stores it in `debugObject.colorSand` and runs
the handler, the uniform `uColorSand` still holds its previous colour, which is
not the colour the constructor builds from the entry. -/
theorem C9_unread_style_keeps_colour :
    (run sampleSet (init sampleNew)
      [.editColor .colorSand "sand"]).debugObject.get .colorSand = "sand" ∧
    (run sampleSet (init sampleNew)
      [.editColor .colorSand "sand"]).uniforms.color .colorSand = "#ffe894" ∧
    (run sampleSet (init sampleNew) [.editColor .colorSand "sand"]).uniforms.color .colorSand ≠
      sampleNew ((run sampleSet (init sampleNew)
        [.editColor .colorSand "sand"]).debugObject.get .colorSand) := by
  decide

/-- C9 (amended): each of the six colour parameters is wired to its own
uniform.  Initially every colour uniform holds the colour built from the
same-named `debugObject` entry, and after every sequence of events from the
initial state it does so for every entry whose style string the colour
library reads.  A colour edit stores the style in its own entry and calls
`set` with it on the colour its own uniform holds; a colour `onChange` handler
does that for its own uniform and leaves the other five colour uniforms, the
four scalar uniforms and the time unchanged. -/
theorem C9_colour_wiring {Color : Type} (newColor : String → Color)
    (setStyle : Color → String → Color) :
    (∀ c : ColorName,
      (init newColor).uniforms.color c = newColor ((init newColor).debugObject.get c)) ∧
    (∀ (evs : List Event) (c : ColorName),
      StyleParses newColor setStyle ((run setStyle (init newColor) evs).debugObject.get c) →
      (run setStyle (init newColor) evs).uniforms.color c =
        newColor ((run setStyle (init newColor) evs).debugObject.get c)) ∧
    (∀ (s : State Color) (c : ColorName) (style : String),
      (step setStyle s (.editColor c style)).debugObject.get c = style ∧
      (step setStyle s (.editColor c style)).uniforms.color c =
        setStyle (s.uniforms.color c) style) ∧
    (∀ (s : State Color) (c d : ColorName),
      (onChangeColor setStyle c s).uniforms.color d =
        if d = c then setStyle (s.uniforms.color c) (s.debugObject.get c)
        else s.uniforms.color d) ∧
    (∀ (s : State Color) (c : ColorName) (k : Slider),
      (onChangeColor setStyle c s).uniforms.scalar k = s.uniforms.scalar k) ∧
    (∀ (s : State Color) (c : ColorName),
      (onChangeColor setStyle c s).uniforms.uTime = s.uniforms.uTime) := by
  refine ⟨?_, ?_, ?_, ?_, ?_, ?_⟩
  · intro c; cases c <;> rfl
  · have key : ∀ (l : List Event) (s : State Color),
        (∀ c, StyleParses newColor setStyle (s.debugObject.get c) →
          s.uniforms.color c = newColor (s.debugObject.get c)) →
        ∀ c, StyleParses newColor setStyle ((run setStyle s l).debugObject.get c) →
          (run setStyle s l).uniforms.color c =
            newColor ((run setStyle s l).debugObject.get c) := by
      intro l
      induction l with
      | nil => intro s hs; exact hs
      | cons ev l ih =>
        intro s hs
        refine ih (step setStyle s ev) ?_
        intro c
        have hc := hs c
        cases ev with
        | togglePause v =>
          cases v <;> cases c <;>
            simpa [step, onChangeTogglePause, Uniforms.color, DebugObject.get] using hc
        | tick e =>
          cases hp : s.paused <;> cases c <;>
            simpa [step, tick, hp, Uniforms.color, DebugObject.get] using hc
        | slide k v =>
          cases k <;> cases c <;>
            simpa [step, setSlider, Uniforms.color, DebugObject.get] using hc
        | editColor n style =>
          cases n <;> cases c <;>
            first
              | (intro h
                 simpa [step, onChangeColor, Uniforms.color, DebugObject.get, DebugObject.set]
                   using h _)
              | simpa [step, onChangeColor, Uniforms.color, DebugObject.get, DebugObject.set]
                  using hc
    intro evs
    refine key evs (init newColor) ?_
    intro c _; cases c <;> rfl
  · intro s c style
    cases c <;> exact ⟨rfl, rfl⟩
  · intro s c d
    cases c <;> cases d <;> simp [onChangeColor, Uniforms.color, DebugObject.get]
  · intro s c k
    cases c <;> cases k <;> rfl
  · intro s c
    cases c <;> rfl

theorem C9_colour_wiring_witness :
    StyleParses sampleNew sampleSet "#112233" ∧
    (run sampleSet (init sampleNew)
      [.editColor .colorSand "sand", .tick 1, .editColor .colorGrass "#112233"]).uniforms.color
        .colorGrass = sampleNew "#112233" :=
  ⟨fun _ => rfl,
    (C9_colour_wiring sampleNew sampleSet).2.1
      [.editColor .colorSand "sand", .tick 1, .editColor .colorGrass "#112233"] .colorGrass
      (fun _ => rfl)⟩

end TerrainScript
